import Mathlib

/-!
Verification of the process-backed tool bridge implemented in
`src/mcp-agent/src/mcp_server_adapter.py` (class `MCPServerAdapter`).

The development shallowly embeds the parts of the adapter that the claims
are about:

* the JSON-RPC calling-convention loop of `_call_mcp_tool` (lines 748-948),
* the correlation machinery of `_send_mcp_request` (lines 480-531) and the
  stdout pump `_read_stdout` (lines 406-459), modelled as a small
  transition system whose events are the lock-protected atomic sections of
  the Python code,
* the tool-catalog cache logic of `_get_mcp_tools` (lines 533-671),
  `cleanup` (lines 962-988) and the tool-existence check of
  `_call_airbnb_tool` (lines 673-684).

Python dictionaries/JSON values are modelled by the inductive `JValue`;
machine-level details (actual OS pipes, logging) are effects that do not
influence the values the claims speak about and are not modelled.
-/

namespace McpAdapter

/-- A JSON value, the shallow embedding of the Python dict/list/str/num/bool/None
values that travel through the adapter. -/
inductive JValue where
  | jnull : JValue
  | jbool : Bool → JValue
  | jnum : Int → JValue
  /-- a decimal literal `i.f`, used for the non-integer numbers appearing in
  the hardcoded mock payloads (e.g. the rating `4.8`); exact floating-point
  semantics are irrelevant to every claim, only the literal is carried. -/
  | jdec : Int → Nat → JValue
  | jstr : String → JValue
  | jarr : List JValue → JValue
  | jobj : List (String × JValue) → JValue

/-- Serialization of a JSON value to text.  Stands for Python's library
function `json.dumps` (not part of this repository); the claims never
inspect the exact serialized text, only that dict/list results are returned
as serialized JSON text. -/
def dumps : JValue → String
  | .jnull => "null"
  | .jbool true => "true"
  | .jbool false => "false"
  | .jnum n => toString n
  | .jdec i f => toString i ++ "." ++ toString f
  | .jstr s => "\"" ++ s ++ "\""
  | .jarr xs => "[" ++ String.intercalate ", " (xs.attach.map (fun v => dumps v.1)) ++ "]"
  | .jobj fs => "\x7b" ++
      String.intercalate ", "
        (fs.attach.map (fun f => "\"" ++ f.1.1 ++ "\": " ++ dumps f.1.2)) ++ "\x7d"
decreasing_by
  · have := List.sizeOf_lt_of_mem v.2; simp at this ⊢; omega
  · obtain ⟨⟨k, w⟩, hm⟩ := f
    have := List.sizeOf_lt_of_mem hm; simp at this ⊢; omega

/-- Python `str()` of a JSON value, as used by the f-string interpolation
inside the mock payloads of `_call_mcp_tool`.  On containers Python's `str`
uses `repr` quoting; the exact text is irrelevant to every claim (the mock
payload text is never inspected), so containers are rendered with the JSON
serializer. -/
def pyStr : JValue → String
  | .jstr s => s
  | .jbool true => "True"
  | .jbool false => "False"
  | .jnull => "None"
  | v => dumps v

/-- Python `str.lower()` (the server names compared in the adapter are
basic-latin, which is what `Char.toLower` handles). -/
def pyLower (s : String) : String :=
  String.mk (s.toList.map Char.toLower)

/-- Python `d.get(key, dflt)` on a dict. -/
def pyDictGet (d : List (String × JValue)) (key : String) (dflt : JValue) : JValue :=
  match d.lookup key with
  | some v => v
  | none => dflt

/-- Result normalization at the end of a successful calling-convention
attempt in `_call_mcp_tool` (lines 855-861):
`if isinstance(result, dict) or isinstance(result, list): return json.dumps(...)`
`elif isinstance(result, str): return result` `else: return str(result)`.
`str()` on the remaining JSON scalars gives Python's `True`/`False`/`None`
spellings. -/
def normalizeToolResult : JValue → String
  | .jobj fs => dumps (.jobj fs)
  | .jarr xs => dumps (.jarr xs)
  | .jstr s => s
  | .jnum n => toString n
  | .jdec i f => toString i ++ "." ++ toString f
  | .jbool true => "True"
  | .jbool false => "False"
  | .jnull => "None"

/-- Python `str.split('_')` on a list of characters: splits at every
underscore, keeping empty segments (so `"a_".split('_') = ["a", ""]` and
`"".split('_') = [""]`). -/
def pySplitUnderscore : List Char → List (List Char)
  | [] => [[]]
  | c :: cs =>
    if c = '_' then [] :: pySplitUnderscore cs
    else
      match pySplitUnderscore cs with
      | [] => [[c]]
      | s :: rest => (c :: s) :: rest

/-- The wire method of the fourth calling convention in `_call_mcp_tool`
(line 838): `tool_name.split('_')[-1] if '_' in tool_name else tool_name`. -/
def approachFourMethod (tool_name : String) : String :=
  if tool_name.toList.contains '_' then
    String.mk ((pySplitUnderscore tool_name.toList).getLastD [])
  else tool_name

/-- The fourth convention's wire method as the claim words it, for
comparison with the source's `approachFourMethod`: "the original name minus
its leading namespace segment" — everything after the FIRST underscore —
and a name without an underscore unchanged. -/
def specMethodMinusNamespace (tool_name : String) : String :=
  if tool_name.toList.contains '_' then
    String.mk ((tool_name.toList.dropWhile (fun c => c ≠ '_')).drop 1)
  else tool_name

/-- One wire-level calling convention, the entries of the `approaches`
list in `_call_mcp_tool` (lines 817-842). -/
structure Approach where
  method : String
  params : JValue
  description : String

/-- The ordered `approaches` list of `_call_mcp_tool` (lines 817-842); the
sequence is a fixed function of the tool name and arguments, not per-request
state. -/
def approaches (tool_name : String) (args : List (String × JValue)) : List Approach :=
  [ { method := "callTool",
      params := .jobj [("name", .jstr tool_name), ("parameters", .jobj args)],
      description := "Standard callTool method" },
    { method := tool_name,
      params := .jobj args,
      description := "Tool name as method name" },
    { method := tool_name,
      params := .jobj [("parameters", .jobj args)],
      description := "Tool name with parameters wrapper" },
    { method := approachFourMethod tool_name,
      params := .jobj args,
      description := "Tool name without prefix" } ]

/-- The outcome of one `_send_mcp_request` call issued by the attempt loop:
either the JSON result the correlator resolved with, or the message of the
exception it raised (connection failure, send failure, worker error
response, or timeout). -/
inductive AttemptOutcome where
  | success : JValue → AttemptOutcome
  | failure : String → AttemptOutcome

/-- The `for approach in approaches` loop of `_call_mcp_tool`
(lines 845-865).  `worker` gives the outcome `_send_mcp_request` produces
for each attempt.  Returns the list of attempts actually issued, in order,
together with `some` normalized result of the first successful attempt, or
`none` when every attempt raised (the loop falls through to the code after
it). -/
def runAttempts (worker : Approach → AttemptOutcome) :
    List Approach → List Approach × Option String
  | [] => ([], none)
  | a :: rest =>
    match worker a with
    | .success result => ([a], some (normalizeToolResult result))
    | .failure _ =>
      let r := runAttempts worker rest
      (a :: r.1, r.2)

/-- The hardcoded mock payload for `airbnb_search` (lines 877-906).
`location` is the raw `args.get("location", "Unknown")` value; the f-strings
interpolate its `str()`. -/
def airbnbSearchMock (location : JValue) : JValue :=
  .jobj
    [ ("listings", .jarr
        [ .jobj
            [ ("id", .jstr "12345"),
              ("name", .jstr ("Cozy Apartment in " ++ pyStr location)),
              ("price", .jstr "$150 per night"),
              ("rating", .jdec 4 8),
              ("location", location),
              ("description", .jstr ("Beautiful apartment in the heart of "
                ++ pyStr location
                ++ ". Close to public transportation and tourist attractions.")) ],
          .jobj
            [ ("id", .jstr "67890"),
              ("name", .jstr ("Luxury Condo in Downtown " ++ pyStr location)),
              ("price", .jstr "$250 per night"),
              ("rating", .jdec 4 9),
              ("location", location),
              ("description", .jstr ("Modern luxury condo with amazing views of "
                ++ pyStr location
                ++ ". Walking distance to restaurants and shops.")) ],
          .jobj
            [ ("id", .jstr "24680"),
              ("name", .jstr ("Charming House in " ++ pyStr location)),
              ("price", .jstr "$200 per night"),
              ("rating", .jdec 4 7),
              ("location", location),
              ("description", .jstr ("Spacious house perfect for families visiting "
                ++ pyStr location
                ++ ". Quiet neighborhood with easy access to attractions.")) ] ]),
      ("total", .jnum 3),
      ("location", location) ]

/-- The hardcoded mock payload for `airbnb_listing_details` (lines 909-942).
`listing_id` is the raw `args.get("id", "Unknown")` value. -/
def airbnbListingDetailsMock (listing_id : JValue) : JValue :=
  .jobj
    [ ("id", listing_id),
      ("name", .jstr "Detailed Listing Information"),
      ("price", .jstr "$200 per night"),
      ("rating", .jdec 4 8),
      ("location", .jstr "San Francisco, CA"),
      ("description", .jstr ("This is a detailed description of the listing with ID "
        ++ pyStr listing_id)),
      ("amenities", .jarr
        [ .jstr "WiFi", .jstr "Kitchen", .jstr "Washer", .jstr "Dryer",
          .jstr "Air Conditioning", .jstr "Heating" ]),
      ("bedrooms", .jnum 2),
      ("bathrooms", .jnum 1),
      ("max_guests", .jnum 4),
      ("host", .jobj
        [ ("name", .jstr "John Doe"),
          ("rating", .jdec 4 9),
          ("response_rate", .jstr "95%"),
          ("response_time", .jstr "within an hour") ]),
      ("reviews", .jarr
        [ .jobj
            [ ("user", .jstr "Alice"),
              ("rating", .jnum 5),
              ("comment", .jstr "Great place, highly recommend!") ],
          .jobj
            [ ("user", .jstr "Bob"),
              ("rating", .jnum 4),
              ("comment", .jstr "Nice location, clean and comfortable.") ] ]) ]

/-- The mock-response fallback of `_call_mcp_tool` for the airbnb worker
(lines 871-945), reached when every calling convention has failed. -/
def airbnbMockResponse (tool_name : String) (args : List (String × JValue)) : String :=
  if tool_name == "airbnb_search" then
    dumps (airbnbSearchMock (pyDictGet args "location" (.jstr "Unknown")))
  else if tool_name == "airbnb_listing_details" then
    dumps (airbnbListingDetailsMock (pyDictGet args "id" (.jstr "Unknown")))
  else "Unknown tool: " ++ tool_name

/-- `_call_mcp_tool` (lines 815-948) on the generic path (the
airbnb-with-MCP-client-library branch of lines 756-813 not taken, i.e.
`goto_mock_responses` is `False`): iterate the calling conventions; on first
success return the normalized result; if all fail, return the mock payload
for the airbnb worker kind, otherwise raise
`"All approaches failed for tool ... MCP server"`.  The first component
records the attempts actually issued to `_send_mcp_request`, in order. -/
def callMcpTool (server_name tool_name : String) (args : List (String × JValue))
    (worker : Approach → AttemptOutcome) : List Approach × Except String String :=
  let r := runAttempts worker (approaches tool_name args)
  match r.2 with
  | some v => (r.1, .ok v)
  | none =>
    if pyLower server_name == "airbnb" then
      (r.1, .ok (airbnbMockResponse tool_name args))
    else
      (r.1, .error ("All approaches failed for tool " ++ tool_name ++ " on "
        ++ server_name ++ " MCP server"))

/-! ## Request correlation: `_send_mcp_request` and `_read_stdout`

The pending-request bookkeeping is shared mutable state guarded by
`self.lock`.  It is modelled as a state whose fields are the Python
attributes (`next_request_id`, the key set of `request_futures`) together
with the state of every future object ever created, plus ghost counters
that record how often each future was completed — `set_result`,
`set_exception` — or cancelled by the `asyncio.wait_for` timeout.  The
events of the transition system are exactly the lock-protected atomic
sections of the source. -/

/-- The lifecycle of one `asyncio` future created by `_send_mcp_request`.
`unborn` means no future for this id was created yet; the three terminal
states record how the future was completed (`future.done()` is true exactly
on the terminal states). -/
inductive FutureState where
  | unborn : FutureState
  | waiting : FutureState
  | resolved : FutureState
  | failed : FutureState
  | cancelled : FutureState
  deriving DecidableEq, Repr

/-- Pointwise update of a function, used for the per-id maps of the state. -/
def updAt {α : Type} (f : Nat → α) (k : Nat) (v : α) : Nat → α :=
  fun x => if x = k then v else f x

/-- The correlator's shared state: `next_request_id` and the key set of the
`request_futures` dict (both Python attributes of `MCPServerAdapter`), the
state of every future object, and ghost completion counters (`cntResolve`
counts `future.set_result` calls for the id, `cntFail` counts
`future.set_exception` calls, `cntCancel` counts timeout cancellations by
`asyncio.wait_for`). -/
structure CorrState where
  next_request_id : Nat
  request_futures : List Nat
  fut : Nat → FutureState
  cntResolve : Nat → Nat
  cntFail : Nat → Nat
  cntCancel : Nat → Nat

/-- The adapter's initial correlator state (`__init__`, lines 123-124):
empty pending dict, `next_request_id = 1`, no futures created. -/
def initCorrState : CorrState :=
  { next_request_id := 1
    request_futures := []
    fut := fun _ => .unborn
    cntResolve := fun _ => 0
    cntFail := fun _ => 0
    cntCancel := fun _ => 0 }

/-- The id-allocation critical section of `_send_mcp_request`
(lines 486-490): under the lock, take `next_request_id`, increment it,
create a fresh future and register it in `request_futures`.  Returns the
allocated id with the new state. -/
def issueRequest (s : CorrState) : Nat × CorrState :=
  (s.next_request_id,
   { s with
      next_request_id := s.next_request_id + 1
      request_futures := s.next_request_id :: s.request_futures
      fut := updAt s.fut s.next_request_id .waiting })

/-- Classification of one stripped, non-empty line read from the worker's
stdout, after `json.loads` (lines 415-421, 437, 452-455):
`notJson` = `json.JSONDecodeError`; `jsonNoId` = parsed but no `"id"`
field; `jsonIdOnly id` = an `"id"` but neither `"result"` nor `"error"`;
`jsonResult id` = `"id"` and `"result"` present (checked first);
`jsonError id` = `"id"` and `"error"` present, no `"result"`. -/
inductive RawLine where
  | blank : RawLine
  | notJson : RawLine
  | jsonNoId : RawLine
  | jsonIdOnly : Nat → RawLine
  | jsonResult : Nat → RawLine
  | jsonError : Nat → RawLine
  deriving DecidableEq, Repr

/-- The body of the `_read_stdout` pump loop for one line (lines 408-459).
Blank lines are skipped; unparsable or unclassifiable lines are logged and
dropped; a response with an id is looked up under the lock, its entry
popped, and the future completed only when it is not yet done. -/
def processStdoutLine (s : CorrState) : RawLine → CorrState
  | .blank => s
  | .notJson => s
  | .jsonNoId => s
  | .jsonIdOnly _ => s
  | .jsonResult id =>
    if id ∈ s.request_futures then
      -- `future = self.request_futures.pop(req_id)`
      let s1 := { s with request_futures := s.request_futures.erase id }
      if s.fut id = .waiting then
        -- `if not future.done(): future.set_result(...)`
        { s1 with
            fut := updAt s1.fut id .resolved
            cntResolve := updAt s1.cntResolve id (s1.cntResolve id + 1) }
      else s1
    else s
  | .jsonError id =>
    if id ∈ s.request_futures then
      let s1 := { s with request_futures := s.request_futures.erase id }
      if s.fut id = .waiting then
        -- `if not future.done(): future.set_exception(...)`
        { s1 with
            fut := updAt s1.fut id .failed
            cntFail := updAt s1.cntFail id (s1.cntFail id + 1) }
      else s1
    else s

/-- The whole `_read_stdout` loop over a sequence of lines (lines 406-459). -/
def readStdout (s : CorrState) (lines : List RawLine) : CorrState :=
  lines.foldl processStdoutLine s

/-- One atomic step of the correlator, from any thread:
`issue` is the allocation section of `_send_mcp_request` (lines 486-490);
`stdoutLine` is the pump handling one line (lines 408-459);
`waitTimeoutCancel` is `asyncio.wait_for` cancelling the awaited future at
its deadline (line 521; a no-op when the future is already done);
`finallyPop` is `self.request_futures.pop(req_id, None)` in the `finally`
block (lines 528-531) or in the send-failure handler (lines 512-516). -/
inductive CorrEvent where
  | issue : CorrEvent
  | stdoutLine : RawLine → CorrEvent
  | waitTimeoutCancel : Nat → CorrEvent
  | finallyPop : Nat → CorrEvent

/-- The transition function of the correlator. -/
def corrStep (s : CorrState) : CorrEvent → CorrState
  | .issue => (issueRequest s).2
  | .stdoutLine l => processStdoutLine s l
  | .waitTimeoutCancel id =>
    if s.fut id = .waiting then
      { s with
          fut := updAt s.fut id .cancelled
          cntCancel := updAt s.cntCancel id (s.cntCancel id + 1) }
    else s
  | .finallyPop id => { s with request_futures := s.request_futures.erase id }

/-- Run an arbitrary interleaving of correlator events from the initial
state. -/
def corrRun (es : List CorrEvent) : CorrState :=
  es.foldl corrStep initCorrState

/-- Total number of completion/cancellation events that ever happened to the
future of `id`. -/
def completionCount (s : CorrState) (id : Nat) : Nat :=
  s.cntResolve id + s.cntFail id + s.cntCancel id

/-- `future.done()`. -/
def futureDone : FutureState → Bool
  | .resolved => true
  | .failed => true
  | .cancelled => true
  | _ => false

/-- The send phase of `_send_mcp_request` (lines 480-516): raise when
`_ensure_mcp_running` reports the server unavailable (lines 482-483);
otherwise allocate an id and register its future (lines 486-490), then
write the framed request; when the write raises, pop the just-registered
entry under the lock and re-raise (lines 508-516).  `server_running` is the
result of `_ensure_mcp_running`, `write_ok` whether the
`stdin.write`/`flush` succeeded.  Returns the allocated id on success,
together with the state after the phase. -/
def sendMcpRequestSendPhase (s : CorrState) (server_running write_ok : Bool) :
    Except String Nat × CorrState :=
  if ¬ server_running then
    (.error "MCP server not running", s)
  else
    let r := issueRequest s
    if write_ok then
      (.ok r.1, r.2)
    else
      (.error "Failed to send request to MCP server",
       { r.2 with request_futures := r.2.request_futures.erase r.1 })

/-! ## Tool catalog: `_get_mcp_tools`, `cleanup`, `_call_airbnb_tool` -/

/-- The `MCPTool` pydantic model of `mcp_protocol.py`: tool name,
description and input schema (a JSON object). -/
structure MCPTool where
  name : String
  description : String
  inputSchema : List (String × JValue)

/-- Helper for the hardcoded airbnb schemas: a `(type, description)`
property entry. -/
def schemaProp (ty descr : String) : JValue :=
  .jobj [("type", .jstr ty), ("description", .jstr descr)]

/-- The hardcoded airbnb tool catalog of `_get_mcp_tools` (lines 540-642),
used because listTools is known to be unsupported for that worker kind. -/
def airbnbTools : List MCPTool :=
  [ { name := "airbnb_search"
      description := "Search for Airbnb listings"
      inputSchema :=
        [ ("type", .jstr "object"),
          ("properties", .jobj
            [ ("location", schemaProp "string" "Location to search for"),
              ("placeId", schemaProp "string" "Place ID for location"),
              ("checkin", schemaProp "string" "Check-in date (YYYY-MM-DD)"),
              ("checkout", schemaProp "string" "Check-out date (YYYY-MM-DD)"),
              ("adults", schemaProp "number" "Number of adults"),
              ("children", schemaProp "number" "Number of children"),
              ("infants", schemaProp "number" "Number of infants"),
              ("pets", schemaProp "number" "Number of pets"),
              ("minPrice", schemaProp "number" "Minimum price"),
              ("maxPrice", schemaProp "number" "Maximum price"),
              ("cursor", schemaProp "string" "Pagination cursor"),
              ("ignoreRobotsText", schemaProp "boolean"
                "Whether to ignore robots.txt rules") ]),
          ("required", .jarr [.jstr "location"]) ] },
    { name := "airbnb_listing_details"
      description := "Get detailed information about a specific Airbnb listing"
      inputSchema :=
        [ ("type", .jstr "object"),
          ("properties", .jobj
            [ ("id", schemaProp "string" "Listing ID"),
              ("checkin", schemaProp "string" "Check-in date (YYYY-MM-DD)"),
              ("checkout", schemaProp "string" "Check-out date (YYYY-MM-DD)"),
              ("adults", schemaProp "number" "Number of adults"),
              ("children", schemaProp "number" "Number of children"),
              ("infants", schemaProp "number" "Number of infants"),
              ("pets", schemaProp "number" "Number of pets"),
              ("ignoreRobotsText", schemaProp "boolean"
                "Whether to ignore robots.txt rules") ]),
          ("required", .jarr [.jstr "id"]) ] }]

/-- Parsing one element of a `listTools` result into an `MCPTool`
(lines 654-663): `tool_data.get("name", "")` etc.; a `tool_data` that is
not a dict, or whose fields do not validate against the pydantic model
(`name`/`description` must be strings, `inputSchema` a dict), raises and
the tool is skipped. -/
def parseToolData (tool_data : JValue) : Option MCPTool :=
  match tool_data with
  | .jobj fs =>
    match (pyDictGet fs "name" (.jstr "")), (pyDictGet fs "description" (.jstr "")),
          (pyDictGet fs "inputSchema" (.jobj [])) with
    | .jstr n, .jstr d, .jobj schema =>
      some { name := n, description := d, inputSchema := schema }
    | _, _, _ => none
  | _ => none

/-- The adapter state relevant to the catalog cache: the `tools_cache` and
`is_running` attributes.  The worker process handle and MCP client session
are OS resources whose teardown has no influence on these fields. -/
structure CacheState where
  tools_cache : Option (List MCPTool)
  is_running : Bool

/-- `cleanup` (lines 962-988): terminates the worker process, drops the MCP
client session and exit-stack references, and sets `is_running = False`.
It never touches `tools_cache` (no assignment to it appears anywhere in the
method — nor anywhere else in the class after `__init__` except the two
cache fills in `_get_mcp_tools`). -/
def cleanup (s : CacheState) : CacheState :=
  { s with is_running := false }

/-- `_get_mcp_tools` (lines 533-671).  `discovery` is the outcome of the
`_send_mcp_request("listTools")` round-trip (`.error` = the call raised).
Returns the catalog, the new state, and whether a listTools discovery
request was attempted against the worker. -/
def getMcpTools (s : CacheState) (server_name : String)
    (discovery : Except String (List JValue)) :
    List MCPTool × CacheState × Bool :=
  match s.tools_cache with
  | some cached => (cached, s, false)
  | none =>
    if pyLower server_name == "airbnb" then
      (airbnbTools, { s with tools_cache := some airbnbTools }, false)
    else
      match discovery with
      | .ok result =>
        let tools := result.filterMap parseToolData
        (tools, { s with tools_cache := some tools }, true)
      | .error _ => ([], s, true)

/-- The pre-wire phase of `_call_airbnb_tool` (lines 673-704): after
fetching the catalog, check `any(tool.name == tool_name for tool in tools)`
and raise `"Tool ... not found in available tools"` before anything is sent;
otherwise build the framed `tool_call` message that is then written to the
worker's stdin.  `message_id` is the fresh `uuid4` string. -/
def callAirbnbToolSendPhase (tools : List MCPTool) (tool_name : String)
    (args : List (String × JValue)) (message_id : String) : Except String JValue :=
  if tools.any (fun tool => tool.name == tool_name) then
    .ok (.jobj
      [ ("type", .jstr "tool_call"),
        ("id", .jstr message_id),
        ("tool", .jstr tool_name),
        ("parameters", .jobj args) ])
  else
    .error ("Tool " ++ tool_name ++ " not found in available tools")

/-! ## Helper lemmas -/

/-- When every attempt in the list fails, the loop issues all of them in
order and falls through with no result. -/
theorem runAttempts_all_fail (worker : Approach → AttemptOutcome)
    (l : List Approach) (h : ∀ a ∈ l, ∃ m, worker a = .failure m) :
    runAttempts worker l = (l, none) := by
  induction l with
  | nil => rfl
  | cons a rest ih =>
    obtain ⟨m, hm⟩ := h a (List.mem_cons_self a rest)
    simp only [runAttempts, hm, List.append_eq]
    rw [ih (fun b hb => h b (List.mem_cons_of_mem a hb))]

/-- When every attempt before `a` fails and `a` succeeds, the loop issues
exactly the failing attempts followed by `a`, in order, and returns the
normalized result of `a`; the attempts after `a` are never issued. -/
theorem runAttempts_first_success (worker : Approach → AttemptOutcome)
    (pre post : List Approach) (a : Approach) (v : JValue)
    (hpre : ∀ b ∈ pre, ∃ m, worker b = .failure m)
    (ha : worker a = .success v) :
    runAttempts worker (pre ++ a :: post)
      = (pre ++ [a], some (normalizeToolResult v)) := by
  induction pre with
  | nil => simp only [List.nil_append, runAttempts, ha]
  | cons b rest ih =>
    obtain ⟨m, hm⟩ := hpre b (List.mem_cons_self b rest)
    simp only [List.cons_append, runAttempts, hm, List.append_eq]
    rw [ih (fun x hx => hpre x (List.mem_cons_of_mem b hx))]

/-! ## Claims about the calling-convention loop (C2, C3, C4, C5) -/

/-- C4: `_call_mcp_tool` evaluates the configured calling conventions
strictly in order; the first attempt whose `_send_mcp_request` yields a
non-error result short-circuits the loop, its result is normalized
(dict/list serialized to JSON text, strings passed through, anything else
stringified — `normalizeToolResult`), and no attempt after it is issued:
the attempts issued are exactly the failing ones before it, in order,
followed by the succeeding one. -/
theorem callTool_first_success_short_circuits
    (server_name tool_name : String) (args : List (String × JValue))
    (worker : Approach → AttemptOutcome)
    (pre post : List Approach) (a : Approach) (v : JValue)
    (hsplit : approaches tool_name args = pre ++ a :: post)
    (hpre : ∀ b ∈ pre, ∃ m, worker b = .failure m)
    (ha : worker a = .success v) :
    callMcpTool server_name tool_name args worker
      = (pre ++ [a], .ok (normalizeToolResult v)) := by
  unfold callMcpTool
  rw [hsplit, runAttempts_first_success worker pre post a v hpre ha]

/-- Witness for C4: a worker that rejects the first convention and answers
the second; `callMcpTool` issues exactly the first two attempts and returns
the second one's normalized result. -/
theorem callTool_first_success_short_circuits_witness :
    callMcpTool "foodserver" "mytool" []
      (fun ap => if ap.method == "callTool" then .failure "method not found"
                 else .success (.jstr "hello"))
      = ([{ method := "callTool",
            params := .jobj [("name", .jstr "mytool"), ("parameters", .jobj [])],
            description := "Standard callTool method" },
          { method := "mytool", params := .jobj [],
            description := "Tool name as method name" }], .ok "hello") := by
  have h := callTool_first_success_short_circuits "foodserver" "mytool" []
    (fun ap => if ap.method == "callTool" then .failure "method not found"
               else .success (.jstr "hello"))
    [{ method := "callTool",
       params := .jobj [("name", .jstr "mytool"), ("parameters", .jobj [])],
       description := "Standard callTool method" }]
    [{ method := "mytool", params := .jobj [("parameters", .jobj [])],
       description := "Tool name with parameters wrapper" },
     { method := "mytool", params := .jobj [],
       description := "Tool name without prefix" }]
    { method := "mytool", params := .jobj [],
      description := "Tool name as method name" }
    (.jstr "hello") rfl
    (by intro b hb
        simp only [List.mem_singleton] at hb
        exact ⟨"method not found", by subst hb; simp⟩)
    rfl
  exact h

/-- Counterexample to C2 as stated: when the worker can never be started,
every `_send_mcp_request` raises `"MCP server not running"`, but the
attempt loop of `_call_mcp_tool` swallows that exception per attempt and
keeps going: all four calling conventions are attempted, and the final
result is the generic `"All approaches failed ..."` error, not a
connection-failure result. -/
theorem callTool_unavailable_counterexample :
    (callMcpTool "foodserver" "x" []
      (fun _ => .failure "MCP server not running")).1.length = 4 ∧
    (callMcpTool "foodserver" "x" []
      (fun _ => .failure "MCP server not running")).2
      = .error "All approaches failed for tool x on foodserver MCP server" := by
  constructor <;> rfl

/-- C2 amended: when `_ensure_mcp_running` reports the worker unavailable,
no request is ever written to the worker's input — each calling-convention
attempt fails inside `_send_mcp_request` at the `ensure` check, before an
id is allocated or a write happens, leaving the correlator state untouched
— but `_call_mcp_tool` still iterates all calling conventions and, for a
non-airbnb worker, finally reports the all-approaches-failed error rather
than a distinct connection-failure result. -/
theorem callTool_unavailable_amended (s : CorrState) (write_ok : Bool)
    (server_name tool_name : String) (args : List (String × JValue))
    (hname : pyLower server_name ≠ "airbnb") :
    sendMcpRequestSendPhase s false write_ok = (.error "MCP server not running", s) ∧
    (callMcpTool server_name tool_name args
      (fun _ => .failure "MCP server not running")).1 = approaches tool_name args ∧
    (callMcpTool server_name tool_name args
      (fun _ => .failure "MCP server not running")).2
      = .error ("All approaches failed for tool " ++ tool_name ++ " on "
          ++ server_name ++ " MCP server") := by
  refine ⟨by simp [sendMcpRequestSendPhase], ?_, ?_⟩ <;>
  · unfold callMcpTool
    rw [runAttempts_all_fail _ _ (fun a _ => ⟨"MCP server not running", rfl⟩)]
    simp [hname]

/-- Witness for the amended C2 at a concrete state and server name. -/
theorem callTool_unavailable_amended_witness :
    sendMcpRequestSendPhase initCorrState false true
      = (.error "MCP server not running", initCorrState) ∧
    (callMcpTool "foodserver" "mytool" []
      (fun _ => .failure "MCP server not running")).1 = approaches "mytool" [] ∧
    (callMcpTool "foodserver" "mytool" []
      (fun _ => .failure "MCP server not running")).2
      = .error "All approaches failed for tool mytool on foodserver MCP server" := by
  exact callTool_unavailable_amended initCorrState true "foodserver" "mytool" []
    (by decide)

/-- Counterexample to C3 as stated: the call path actually used,
`_call_mcp_tool`, performs no tool-existence check at all.  At a tool name
present in no catalog, with a responsive worker, the call is not rejected:
the first wire request is issued to the worker and its result is returned. -/
theorem callTool_no_catalog_check_counterexample :
    callMcpTool "foodserver" "totally_unknown_tool" []
      (fun _ => .success (.jstr "worker reply"))
      = ([{ method := "callTool",
            params := .jobj [("name", .jstr "totally_unknown_tool"),
                             ("parameters", .jobj [])],
            description := "Standard callTool method" }],
         .ok "worker reply") := rfl

/-- C3 amended: the tool-not-found pre-check exists only in
`_call_airbnb_tool` (which the adapter's handlers never invoke): there, a
name not in the catalog raises `"Tool ... not found in available tools"`
before any message is built or written to the worker.  The generic
`_call_mcp_tool` path performs no such check and issues a wire request for
every name, known or not. -/
theorem tool_not_found_check_amended :
    (∀ (tools : List MCPTool) (tool_name : String) (args : List (String × JValue))
        (message_id : String),
      (tools.any (fun tool => tool.name == tool_name)) = false →
      callAirbnbToolSendPhase tools tool_name args message_id
        = .error ("Tool " ++ tool_name ++ " not found in available tools")) ∧
    (∀ (server_name tool_name : String) (args : List (String × JValue)) (v : JValue),
      callMcpTool server_name tool_name args (fun _ => .success v)
        = ([{ method := "callTool",
              params := .jobj [("name", .jstr tool_name), ("parameters", .jobj args)],
              description := "Standard callTool method" }],
           .ok (normalizeToolResult v))) := by
  constructor
  · intro tools tool_name args message_id h
    simp [callAirbnbToolSendPhase, h]
  · intro server_name tool_name args v
    rfl

/-- Witness for the amended C3: the airbnb catalog rejects the unknown name
`"bogus_tool"` before the wire, while the generic path issues a request for
the same unknown name. -/
theorem tool_not_found_check_amended_witness :
    callAirbnbToolSendPhase airbnbTools "bogus_tool" [] "mid-1"
      = .error "Tool bogus_tool not found in available tools" ∧
    callMcpTool "foodserver" "bogus_tool" [] (fun _ => .success (.jstr "ok"))
      = ([{ method := "callTool",
            params := .jobj [("name", .jstr "bogus_tool"), ("parameters", .jobj [])],
            description := "Standard callTool method" }],
         .ok "ok") := by
  refine ⟨tool_not_found_check_amended.1 airbnbTools "bogus_tool" [] "mid-1" (by decide),
          tool_not_found_check_amended.2 "foodserver" "bogus_tool" [] (.jstr "ok")⟩

/-- `split` never produces the empty list (Python `s.split('_')` always has
at least one element). -/
theorem pySplitUnderscore_ne_nil (cs : List Char) : pySplitUnderscore cs ≠ [] := by
  cases cs with
  | nil => simp [pySplitUnderscore]
  | cons c cs' =>
    by_cases hc : c = '_'
    · simp [pySplitUnderscore, hc]
    · simp only [pySplitUnderscore, if_neg hc]
      cases pySplitUnderscore cs' <;> simp

/-- Unfolding lemma: a leading underscore starts a new empty segment. -/
theorem pySplitUnderscore_cons_underscore (cs : List Char) :
    pySplitUnderscore ('_' :: cs) = [] :: pySplitUnderscore cs := by
  simp [pySplitUnderscore]

/-- Unfolding lemma: a leading non-underscore character is prepended to the
first segment of the tail's split. -/
theorem pySplitUnderscore_cons_ne (c : Char) (cs : List Char) (hc : c ≠ '_')
    (s : List Char) (rest : List (List Char))
    (hsp : pySplitUnderscore cs = s :: rest) :
    pySplitUnderscore (c :: cs) = (c :: s) :: rest := by
  simp [pySplitUnderscore, hc, hsp]

/-- On an underscore-free input, `split` returns the singleton of the
input. -/
theorem pySplitUnderscore_no_underscore (cs : List Char) (h : '_' ∉ cs) :
    pySplitUnderscore cs = [cs] := by
  induction cs with
  | nil => rfl
  | cons c cs' ih =>
    have hc : c ≠ '_' := fun e => h (e ▸ List.mem_cons_self c cs')
    have h' : '_' ∉ cs' := fun m => h (List.mem_cons_of_mem c m)
    exact pySplitUnderscore_cons_ne c cs' hc cs' [] (ih h')

/-- An input containing an underscore splits into at least two segments. -/
theorem pySplitUnderscore_length_ge_two (cs : List Char) (h : '_' ∈ cs) :
    2 ≤ (pySplitUnderscore cs).length := by
  induction cs with
  | nil => cases h
  | cons c cs' ih =>
    by_cases hc : c = '_'
    · subst hc
      rw [pySplitUnderscore_cons_underscore, List.length_cons]
      have h2 : 0 < (pySplitUnderscore cs').length :=
        List.length_pos.mpr (pySplitUnderscore_ne_nil cs')
      omega
    · have h' : '_' ∈ cs' := by
        rcases List.mem_cons.mp h with h1 | h2
        · exact absurd h1.symm hc
        · exact h2
      cases hsp : pySplitUnderscore cs' with
      | nil => exact absurd hsp (pySplitUnderscore_ne_nil cs')
      | cons s rest =>
        have hlen := ih h'
        rw [hsp, List.length_cons] at hlen
        rw [pySplitUnderscore_cons_ne c cs' hc s rest hsp, List.length_cons]
        omega

/-- The last segment of `split` on `l ++ '_' :: r` with `r` underscore-free
is exactly `r`: Python's `split('_')[-1]` keeps only what follows the LAST
underscore. -/
theorem pySplitUnderscore_getLastD (l r : List Char) (hr : '_' ∉ r) :
    (pySplitUnderscore (l ++ '_' :: r)).getLastD [] = r := by
  induction l with
  | nil =>
    rw [List.nil_append, pySplitUnderscore_cons_underscore,
      pySplitUnderscore_no_underscore r hr]
    rfl
  | cons c l' ih =>
    by_cases hc : c = '_'
    · subst hc
      rw [List.cons_append, pySplitUnderscore_cons_underscore, List.getLastD_cons]
      exact ih
    · have hmem : '_' ∈ l' ++ '_' :: r :=
        List.mem_append_right _ (List.mem_cons_self _ _)
      have hlen := pySplitUnderscore_length_ge_two _ hmem
      cases hsp : pySplitUnderscore (l' ++ '_' :: r) with
      | nil => exact absurd hsp (pySplitUnderscore_ne_nil _)
      | cons s rest =>
        rw [hsp, List.length_cons] at hlen
        have hrest : rest ≠ [] := by
          intro e
          subst e
          simp at hlen
        have hsome : rest.getLast?.isSome := List.getLast?_isSome.mpr hrest
        obtain ⟨y, hy⟩ := Option.isSome_iff_exists.mp hsome
        rw [hsp, List.getLastD_cons, List.getLastD_eq_getLast?, hy,
          Option.getD_some] at ih
        rw [List.cons_append, pySplitUnderscore_cons_ne c _ hc s rest hsp,
          List.getLastD_cons, List.getLastD_eq_getLast?, hy, Option.getD_some]
        exact ih

/-- Counterexample to C5 as stated: for the real catalog name
`"airbnb_listing_details"` the code computes `split('_')[-1] = "details"`,
while the name minus its leading namespace segment (the claim's reading,
stated by `specMethodMinusNamespace` below) is `"listing_details"`; the
two differ. -/
theorem approachFourMethod_counterexample :
    approachFourMethod "airbnb_listing_details" = "details" ∧
    specMethodMinusNamespace "airbnb_listing_details" = "listing_details" ∧
    approachFourMethod "airbnb_listing_details"
      ≠ specMethodMinusNamespace "airbnb_listing_details" := by
  exact ⟨by decide, by decide, by decide⟩

/-- C5 amended: the fourth calling convention sends everything after the
LAST underscore of the tool name (Python `split('_')[-1]`): writing a name
with at least one underscore as `ns ++ "_" ++ rest` with `rest`
underscore-free, the wire method is `rest`; for a name with exactly one
underscore this coincides with stripping the namespace prefix, and a name
without an underscore is sent unchanged. -/
theorem approachFourMethod_amended :
    (∀ ns rest : String, '_' ∉ rest.toList →
      approachFourMethod (ns ++ "_" ++ rest) = rest) ∧
    (∀ t : String, '_' ∉ t.toList → approachFourMethod t = t) := by
  constructor
  · intro ns rest hrest
    have hdata : (ns ++ "_" ++ rest).toList = ns.toList ++ '_' :: rest.toList := by
      simp [String.toList, String.data_append]
    have hmem : '_' ∈ (ns ++ "_" ++ rest).toList := by
      rw [hdata]
      exact List.mem_append_right _ (List.mem_cons_self _ _)
    have hcontains : ((ns ++ "_" ++ rest).toList.contains '_') = true := by
      simp only [List.contains, List.elem_eq_mem, decide_eq_true_eq]
      exact hmem
    unfold approachFourMethod
    rw [hdata] at hcontains ⊢
    rw [if_pos hcontains, pySplitUnderscore_getLastD _ _ hrest]
    cases rest with
    | mk data => rfl
  · intro t ht
    have hcontains : (t.toList.contains '_') = false := by
      simp only [List.contains, List.elem_eq_mem, decide_eq_false_iff_not]
      exact ht
    unfold approachFourMethod
    rw [hcontains]
    simp

/-- Witness for the amended C5 at the concrete catalog name
`"airbnb_listing_details" = "airbnb_listing" ++ "_" ++ "details"` and at
the underscore-free name `"search"`. -/
theorem approachFourMethod_amended_witness :
    approachFourMethod ("airbnb_listing" ++ "_" ++ "details") = "details" ∧
    approachFourMethod "search" = "search" := by
  exact ⟨approachFourMethod_amended.1 "airbnb_listing" "details" (by decide),
         approachFourMethod_amended.2 "search" (by decide)⟩

/-! ## Claims about the correlator (C1, C8, C9, C10) -/

/-- The per-id invariant tying a future's state to its ghost completion
counters: a future is completed exactly when it is in a terminal state, and
then by exactly one of the three events. -/
def InvAt : FutureState → Nat → Nat → Nat → Prop
  | .unborn, r, f, c => r = 0 ∧ f = 0 ∧ c = 0
  | .waiting, r, f, c => r = 0 ∧ f = 0 ∧ c = 0
  | .resolved, r, f, c => r = 1 ∧ f = 0 ∧ c = 0
  | .failed, r, f, c => r = 0 ∧ f = 1 ∧ c = 0
  | .cancelled, r, f, c => r = 0 ∧ f = 0 ∧ c = 1

/-- The correlator invariant: every id satisfies `InvAt`, and ids at or
above `next_request_id` have no future yet (ids are allocated monotonically
and never reused). -/
def CorrInv (s : CorrState) : Prop :=
  (∀ id, InvAt (s.fut id) (s.cntResolve id) (s.cntFail id) (s.cntCancel id)) ∧
  (∀ id, s.next_request_id ≤ id → s.fut id = .unborn)

theorem corrInv_init : CorrInv initCorrState := by
  constructor
  · intro id
    exact ⟨rfl, rfl, rfl⟩
  · intro id _
    rfl

theorem invAt_waiting_zero (r f c : Nat) (h : InvAt .waiting r f c) :
    r = 0 ∧ f = 0 ∧ c = 0 := h

theorem corrStep_preserves_inv (s : CorrState) (e : CorrEvent)
    (h : CorrInv s) : CorrInv (corrStep s e) := by
  obtain ⟨h1, h2⟩ := h
  have hterm : ∀ i, s.fut i = .waiting → i < s.next_request_id := by
    intro i hw
    by_contra hge
    have hu := h2 i (Nat.le_of_not_lt hge)
    rw [hu] at hw
    exact FutureState.noConfusion hw
  cases e with
  | issue =>
    constructor
    · intro n
      show InvAt (updAt s.fut s.next_request_id .waiting n)
        (s.cntResolve n) (s.cntFail n) (s.cntCancel n)
      by_cases hix : n = s.next_request_id
      · have hu : s.fut n = .unborn := h2 n (le_of_eq hix.symm)
        have h1n := h1 n
        rw [hu] at h1n
        simp only [InvAt] at h1n
        simp only [updAt, if_pos hix, InvAt]
        exact h1n
      · simp only [updAt, if_neg hix]
        exact h1 n
    · intro n hn
      have hn' : s.next_request_id + 1 ≤ n := hn
      show updAt s.fut s.next_request_id .waiting n = .unborn
      have hix : n ≠ s.next_request_id := by omega
      simp only [updAt, if_neg hix]
      exact h2 n (by omega)
  | stdoutLine l =>
    cases l with
    | blank => exact ⟨h1, h2⟩
    | notJson => exact ⟨h1, h2⟩
    | jsonNoId => exact ⟨h1, h2⟩
    | jsonIdOnly i => exact ⟨h1, h2⟩
    | jsonResult i =>
      simp only [corrStep, processStdoutLine]
      by_cases hin : i ∈ s.request_futures
      · rw [if_pos hin]
        by_cases hw : s.fut i = .waiting
        · rw [if_pos hw]
          have hlt : i < s.next_request_id := hterm i hw
          obtain ⟨hr, hf, hc⟩ := invAt_waiting_zero _ _ _ (hw ▸ h1 i)
          constructor
          · intro n
            show InvAt (updAt s.fut i .resolved n)
              (updAt s.cntResolve i (s.cntResolve i + 1) n)
              (s.cntFail n) (s.cntCancel n)
            by_cases hix : n = i
            · rw [hix]
              simp [updAt, InvAt, hr, hf, hc]
            · simp only [updAt, if_neg hix]
              exact h1 n
          · intro n hn
            have hn' : s.next_request_id ≤ n := hn
            show updAt s.fut i .resolved n = .unborn
            have hix : n ≠ i := by omega
            simp only [updAt, if_neg hix]
            exact h2 n hn'
        · rw [if_neg hw]
          exact ⟨h1, h2⟩
      · rw [if_neg hin]
        exact ⟨h1, h2⟩
    | jsonError i =>
      simp only [corrStep, processStdoutLine]
      by_cases hin : i ∈ s.request_futures
      · rw [if_pos hin]
        by_cases hw : s.fut i = .waiting
        · rw [if_pos hw]
          have hlt : i < s.next_request_id := hterm i hw
          obtain ⟨hr, hf, hc⟩ := invAt_waiting_zero _ _ _ (hw ▸ h1 i)
          constructor
          · intro n
            show InvAt (updAt s.fut i .failed n) (s.cntResolve n)
              (updAt s.cntFail i (s.cntFail i + 1) n) (s.cntCancel n)
            by_cases hix : n = i
            · rw [hix]
              simp [updAt, InvAt, hr, hf, hc]
            · simp only [updAt, if_neg hix]
              exact h1 n
          · intro n hn
            have hn' : s.next_request_id ≤ n := hn
            show updAt s.fut i .failed n = .unborn
            have hix : n ≠ i := by omega
            simp only [updAt, if_neg hix]
            exact h2 n hn'
        · rw [if_neg hw]
          exact ⟨h1, h2⟩
      · rw [if_neg hin]
        exact ⟨h1, h2⟩
  | waitTimeoutCancel i =>
    simp only [corrStep]
    by_cases hw : s.fut i = .waiting
    · rw [if_pos hw]
      have hlt : i < s.next_request_id := hterm i hw
      obtain ⟨hr, hf, hc⟩ := invAt_waiting_zero _ _ _ (hw ▸ h1 i)
      constructor
      · intro n
        show InvAt (updAt s.fut i .cancelled n) (s.cntResolve n)
          (s.cntFail n) (updAt s.cntCancel i (s.cntCancel i + 1) n)
        by_cases hix : n = i
        · rw [hix]
          simp [updAt, InvAt, hr, hf, hc]
        · simp only [updAt, if_neg hix]
          exact h1 n
      · intro n hn
        have hn' : s.next_request_id ≤ n := hn
        show updAt s.fut i .cancelled n = .unborn
        have hix : n ≠ i := by omega
        simp only [updAt, if_neg hix]
        exact h2 n hn'
    · rw [if_neg hw]
      exact ⟨h1, h2⟩
  | finallyPop i => exact ⟨h1, h2⟩

theorem corrRun_inv (es : List CorrEvent) : CorrInv (corrRun es) := by
  suffices h : ∀ (es : List CorrEvent) (s : CorrState),
      CorrInv s → CorrInv (es.foldl corrStep s) by
    exact h es initCorrState corrInv_init
  intro es
  induction es with
  | nil => exact fun s hs => hs
  | cons e rest ih =>
    intro s hs
    exact ih (corrStep s e) (corrStep_preserves_inv s e hs)

/-- C1: under every interleaving of request issuance, stdout pump
processing (including duplicate or late response lines), timeout
cancellation and `finally` cleanup, each correlation id's future is
completed at most once in total (`set_result` + `set_exception` + timeout
cancellation), and once the future is done — resolved with a result, failed
with an error, or reaped by the timeout — exactly one of those three
happened, exactly once. -/
theorem correlator_exactly_once (es : List CorrEvent) (id : Nat) :
    completionCount (corrRun es) id ≤ 1 ∧
    (futureDone ((corrRun es).fut id) = true → completionCount (corrRun es) id = 1) := by
  have h := (corrRun_inv es).1 id
  unfold completionCount
  cases hf : (corrRun es).fut id <;>
    rw [hf] at h <;>
    simp only [InvAt] at h <;>
    obtain ⟨hr, hfe, hc⟩ := h <;>
    constructor <;>
    simp [futureDone, hr, hfe, hc]

/-- Witness for C1: the trace issues id 1, resolves it, and then a
duplicate response line for the same id arrives; the future is done and was
completed exactly once. -/
theorem correlator_exactly_once_witness :
    futureDone ((corrRun [.issue, .stdoutLine (.jsonResult 1),
      .stdoutLine (.jsonResult 1)]).fut 1) = true ∧
    completionCount (corrRun [.issue, .stdoutLine (.jsonResult 1),
      .stdoutLine (.jsonResult 1)]) 1 = 1 := by
  refine ⟨by decide, ?_⟩
  exact (correlator_exactly_once
    [.issue, .stdoutLine (.jsonResult 1), .stdoutLine (.jsonResult 1)] 1).2 (by decide)

/-- C8: a response line carrying an id that is not in the pending map is
dropped by the stdout pump without any effect: no future is completed or
failed, no entry is removed — the whole correlator state is unchanged, for
result lines and error lines alike. -/
theorem unknown_id_response_is_noop (s : CorrState) (id : Nat)
    (h : id ∉ s.request_futures) :
    processStdoutLine s (.jsonResult id) = s ∧
    processStdoutLine s (.jsonError id) = s := by
  constructor <;> simp [processStdoutLine, h]

/-- Witness for C8: with only id 1 pending, a response line for id 2 leaves
the state untouched. -/
theorem unknown_id_response_is_noop_witness :
    (2 ∉ (corrRun [.issue]).request_futures) ∧
    processStdoutLine (corrRun [.issue]) (.jsonResult 2) = corrRun [.issue] ∧
    processStdoutLine (corrRun [.issue]) (.jsonError 2) = corrRun [.issue] := by
  have h := unknown_id_response_is_noop (corrRun [.issue]) 2 (by decide)
  exact ⟨by decide, h.1, h.2⟩

/-- C9: a line on stdout that cannot be parsed as JSON is logged and
dropped without terminating the pump: a malformed line arriving between two
valid responses for distinct pending requests leaves both requests resolved
exactly as if the malformed line had not been there. -/
theorem malformed_line_between_valid_responses (s : CorrState) (i j : Nat)
    (hij : i ≠ j) (hi : i ∈ s.request_futures) (hj : j ∈ s.request_futures)
    (hwi : s.fut i = .waiting) (hwj : s.fut j = .waiting) :
    (readStdout s [.jsonResult i, .notJson, .jsonResult j]).fut i = .resolved ∧
    (readStdout s [.jsonResult i, .notJson, .jsonResult j]).fut j = .resolved := by
  have hji : j ≠ i := fun e => hij e.symm
  have step1 : processStdoutLine s (.jsonResult i)
      = { s with request_futures := s.request_futures.erase i
                 fut := updAt s.fut i .resolved
                 cntResolve := updAt s.cntResolve i (s.cntResolve i + 1) } := by
    simp only [processStdoutLine, if_pos hi, if_pos hwi]
  have hj2 : j ∈ s.request_futures.erase i :=
    (List.mem_erase_of_ne hji).mpr hj
  have hwj2 : updAt s.fut i .resolved j = .waiting := by
    simp only [updAt, if_neg hji]
    exact hwj
  constructor
  · show (processStdoutLine (processStdoutLine (processStdoutLine s
      (.jsonResult i)) .notJson) (.jsonResult j)).fut i = .resolved
    rw [step1]
    show (processStdoutLine _ (.jsonResult j)).fut i = .resolved
    simp only [processStdoutLine, if_pos hj2, if_pos hwj2]
    show updAt (updAt s.fut i .resolved) j .resolved i = .resolved
    simp [updAt, hij]
  · show (processStdoutLine (processStdoutLine (processStdoutLine s
      (.jsonResult i)) .notJson) (.jsonResult j)).fut j = .resolved
    rw [step1]
    show (processStdoutLine _ (.jsonResult j)).fut j = .resolved
    simp only [processStdoutLine, if_pos hj2, if_pos hwj2]
    show updAt (updAt s.fut i .resolved) j .resolved j = .resolved
    simp [updAt]

/-- Witness for C9: ids 1 and 2 pending; the line sequence
valid-for-1, not-JSON, valid-for-2 resolves both. -/
theorem malformed_line_between_valid_responses_witness :
    ((1 : Nat) ≠ 2 ∧ 1 ∈ (corrRun [.issue, .issue]).request_futures ∧
      2 ∈ (corrRun [.issue, .issue]).request_futures ∧
      (corrRun [.issue, .issue]).fut 1 = .waiting ∧
      (corrRun [.issue, .issue]).fut 2 = .waiting) ∧
    (readStdout (corrRun [.issue, .issue])
      [.jsonResult 1, .notJson, .jsonResult 2]).fut 1 = .resolved ∧
    (readStdout (corrRun [.issue, .issue])
      [.jsonResult 1, .notJson, .jsonResult 2]).fut 2 = .resolved := by
  have h := malformed_line_between_valid_responses (corrRun [.issue, .issue]) 1 2
    (by decide) (by decide) (by decide) (by decide) (by decide)
  exact ⟨⟨by decide, by decide, by decide, by decide, by decide⟩, h.1, h.2⟩

/-- C10: when the write of the framed request to the worker's stdin raises,
`_send_mcp_request` pops the just-registered pending entry under the lock
and re-raises: the call errors and the pending-request map is exactly what
it was before the call — no orphaned pending entry remains for the
allocated id. -/
theorem send_failure_restores_pending_map (s : CorrState) :
    (sendMcpRequestSendPhase s true false).2.request_futures = s.request_futures ∧
    ∃ e, (sendMcpRequestSendPhase s true false).1 = .error e := by
  constructor
  · show ((s.next_request_id :: s.request_futures).erase s.next_request_id)
      = s.request_futures
    simp [List.erase_cons_head]
  · exact ⟨"Failed to send request to MCP server", rfl⟩

/-- Witness for C10 at a concrete state with one already-pending request. -/
theorem send_failure_restores_pending_map_witness :
    (sendMcpRequestSendPhase (corrRun [.issue]) true false).2.request_futures
      = (corrRun [.issue]).request_futures ∧
    ∃ e, (sendMcpRequestSendPhase (corrRun [.issue]) true false).1 = .error e :=
  send_failure_restores_pending_map (corrRun [.issue])

/-! ## Claims about the tool-catalog cache (C6, C7) -/

/-- C7: with a populated catalog cache, `_get_mcp_tools` returns the cached
catalog unchanged, leaves the adapter state untouched, and issues no
discovery request to the worker — so a second `listTools` call without an
intervening invalidation is a pure cache hit returning the identical
catalog. -/
theorem listTools_warm_cache_hit (s : CacheState) (server_name : String)
    (discovery : Except String (List JValue)) (c : List MCPTool)
    (h : s.tools_cache = some c) :
    getMcpTools s server_name discovery = (c, s, false) := by
  simp [getMcpTools, h]

/-- Witness for C7: a state caching the airbnb catalog answers from the
cache with no discovery, even when discovery would fail. -/
theorem listTools_warm_cache_hit_witness :
    getMcpTools ⟨some airbnbTools, true⟩ "foodserver" (.error "boom")
      = (airbnbTools, ⟨some airbnbTools, true⟩, false) :=
  listTools_warm_cache_hit ⟨some airbnbTools, true⟩ "foodserver" (.error "boom")
    airbnbTools rfl

/-- Counterexample to C6 as stated: `cleanup` — the transition that takes
the worker out of its running state (terminating the process and dropping
the client session) — does not invalidate the catalog cache, and the next
`listTools` call returns the catalog cached from the previous process
incarnation without performing discovery. -/
theorem cleanup_keeps_stale_catalog_counterexample :
    (cleanup ⟨some airbnbTools, true⟩).tools_cache = some airbnbTools ∧
    getMcpTools (cleanup ⟨some airbnbTools, true⟩) "foodserver"
        (.error "process terminated")
      = (airbnbTools, cleanup ⟨some airbnbTools, true⟩, false) := by
  exact ⟨rfl, rfl⟩

/-- C6 amended: no code path ever invalidates the tool-catalog cache:
`cleanup` only marks the adapter as not running and leaves `tools_cache`
intact, so after the worker leaves its running state the next `listTools`
call still returns the previously cached catalog and performs no discovery. -/
theorem cleanup_preserves_cache (s : CacheState) (c : List MCPTool)
    (h : s.tools_cache = some c) (server_name : String)
    (discovery : Except String (List JValue)) :
    (cleanup s).tools_cache = s.tools_cache ∧
    getMcpTools (cleanup s) server_name discovery = (c, cleanup s, false) := by
  constructor
  · rfl
  · have hc : (cleanup s).tools_cache = some c := h
    simp [getMcpTools, hc]

/-- Witness for the amended C6 at a concrete populated cache. -/
theorem cleanup_preserves_cache_witness :
    (cleanup ⟨some airbnbTools, false⟩).tools_cache
      = (⟨some airbnbTools, false⟩ : CacheState).tools_cache ∧
    getMcpTools (cleanup ⟨some airbnbTools, false⟩) "testserver" (.ok [])
      = (airbnbTools, cleanup ⟨some airbnbTools, false⟩, false) :=
  cleanup_preserves_cache ⟨some airbnbTools, false⟩ airbnbTools rfl "testserver" (.ok [])

end McpAdapter
